import Mathlib

/-!
Verification development for the GetWorklogs Azure Function
(`src/GetWorklogs/index.js` — HTTP handler plus `TempoService`).

The source is dynamically typed JavaScript.  The embedding models the
JavaScript values that actually flow through the worklog pipeline with a
small value type `JValue` (undefined, null, integer number, string), with
JavaScript truthiness and the `a || b` operator made explicit.  Machine
numbers are modelled with `Nat`/`Int` exact arithmetic.  Network calls are
modelled by passing the upstream responses in as explicit parameters; the
`while (hasMore)` pagination loop is modelled by structural recursion on an
explicit fuel bound, with a distinguished out-of-fuel outcome that the
theorems rule out via their fuel hypotheses.
-/

namespace GetWorklogsApp

/-- A JavaScript value, restricted to the shapes that flow through the
worklog pipeline: `undefined`, `null`, (integer) numbers and strings. -/
inductive JValue where
  | vUndefined : JValue
  | vNull : JValue
  | vNum : Int → JValue
  | vStr : String → JValue
deriving DecidableEq, Repr

/-- JavaScript truthiness: `undefined`, `null`, `0` and `""` are falsy. -/
def JValue.truthy : JValue → Bool
  | .vUndefined => false
  | .vNull => false
  | .vNum n => n != 0
  | .vStr s => s != ""

/-- The JavaScript `a || b` operator: `b` when `a` is falsy, else `a`. -/
def jsOr (a b : JValue) : JValue :=
  if a.truthy then a else b

/-- JavaScript string coercion of a value, as used for object-property
keys (`issueMap[id]` coerces `id` with `String(id)`). -/
def jsToString : JValue → String
  | .vUndefined => "undefined"
  | .vNull => "null"
  | .vNum n => toString n
  | .vStr s => s

/-- The optional nested `issue` object of a raw Tempo worklog: an issue
identifier plus a key and summary (possibly absent, i.e. `undefined`). -/
structure RawIssue where
  id : JValue
  key : JValue
  summary : JValue
deriving DecidableEq, Repr

/-- The optional nested `author` object of a raw Tempo worklog. -/
structure RawAuthor where
  accountId : JValue
  displayName : JValue
deriving DecidableEq, Repr

/-- A raw worklog as received from the Tempo API (`results` array
elements).  `issue = none` / `author = none` model an absent (or
null/undefined) nested object, so that the source's optional chaining
`worklog.issue?.id` yields `undefined`.  `timeSpentSeconds` is the
time-spent duration in seconds. -/
structure RawWorklog where
  tempoWorklogId : JValue
  issue : Option RawIssue
  startDate : JValue
  startTime : JValue
  timeSpentSeconds : Nat
  description : JValue
  author : Option RawAuthor
  createdAt : JValue
  updatedAt : JValue
deriving DecidableEq, Repr

/-- The source's `worklog.issue?.id`: `undefined` when `issue` is absent. -/
def worklogIssueId (w : RawWorklog) : JValue :=
  match w.issue with
  | none => .vUndefined
  | some i => i.id

/-- The source's `worklog.issue?.key`. -/
def worklogIssueKey (w : RawWorklog) : JValue :=
  match w.issue with
  | none => .vUndefined
  | some i => i.key

/-- The source's `worklog.issue?.summary`. -/
def worklogIssueSummary (w : RawWorklog) : JValue :=
  match w.issue with
  | none => .vUndefined
  | some i => i.summary

/-- The source's `worklog.author?.accountId`. -/
def worklogAuthorAccountId (w : RawWorklog) : JValue :=
  match w.author with
  | none => .vUndefined
  | some a => a.accountId

/-- The source's `worklog.author?.displayName`. -/
def worklogAuthorDisplayName (w : RawWorklog) : JValue :=
  match w.author with
  | none => .vUndefined
  | some a => a.displayName

/-- Round a rational to the nearest integer, ties to the even integer —
the rounding direction of IEEE-754 round-to-nearest-even. -/
def roundHalfEven (q : ℚ) : ℤ :=
  if Int.fract q < 1 / 2 then ⌊q⌋
  else if 1 / 2 < Int.fract q then ⌊q⌋ + 1
  else if ⌊q⌋ % 2 = 0 then ⌊q⌋ else ⌊q⌋ + 1

/-- Fuel-driven floor of the base-2 logarithm (executable counterpart
of `Nat.log 2`, which is defined by well-founded recursion and does not
reduce in the kernel). -/
def natLog2F : Nat → Nat → Nat
  | 0, _ => 0
  | fuel + 1, n => if 2 ≤ n then natLog2F fuel (n / 2) + 1 else 0

/-- Floor of the base-2 logarithm of a natural number. -/
def natLog2 (n : Nat) : Nat := natLog2F n n

/-- Floor of the base-2 logarithm of the positive rational `a / b`. -/
def ratFloorLog2 (a b : Nat) : ℤ :=
  if b ≤ a then (natLog2 (a / b) : ℤ)
  else if a * 2 ^ natLog2 (b / a) = b then -(natLog2 (b / a) : ℤ)
  else -((natLog2 (b / a) : ℤ) + 1)

/-- Integer division of `A` by `B` rounded to the nearest quotient,
ties to even — `roundHalfEven (A / B)` in executable Nat arithmetic. -/
def halfEvenDiv (A B : Nat) : Nat :=
  if 2 * (A % B) < B then A / B
  else if B < 2 * (A % B) then A / B + 1
  else if (A / B) % 2 = 0 then A / B else A / B + 1

/-- The 53-bit significand of the IEEE-754 binary64 value nearest to
`a / b`: the half-even rounding of `a / b * 2 ^ (52 - e)` at the
exponent `e` of `a / b`, computed in Nat arithmetic. -/
def jsSignificand (a b : Nat) : Nat :=
  if 0 ≤ 52 - ratFloorLog2 a b then
    halfEvenDiv (a * 2 ^ (52 - ratFloorLog2 a b).toNat) b
  else halfEvenDiv a (b * 2 ^ (ratFloorLog2 a b - 52).toNat)

/-- The IEEE-754 binary64 value nearest to `a / b` (round to nearest,
ties to even): the 53-bit significand scaled by the exponent.
Faithful to a JavaScript division of nonnegative values whose quotient
lies in the normal finite double range (which covers
`timeSpentSeconds / 3600` for every integer seconds count up to 2^53,
the largest integers a JavaScript number holds exactly). -/
def jsDouble (a b : Nat) : ℚ :=
  if a = 0 then 0
  else (jsSignificand a b : ℚ) * 2 ^ (ratFloorLog2 a b - 52)

/-- Renders a centi-hour count the way `toFixed(2)` renders the
corresponding number: integral part, a dot, and exactly two decimals. -/
def twoDecFormat (c : Nat) : String :=
  toString (c / 100) ++ "." ++ (if c % 100 < 10 then "0" else "") ++ toString (c % 100)

/-- The hundredths count selected by `toFixed(2)` for the double
quotient `a / b`: ECMAScript picks the integer `n` with `n / 100`
closest to the double's exact value, the larger `n` at ties — for a
nonnegative double `x` that is `⌊100 * x + 1/2⌋`, computed here in Nat
arithmetic from the significand and exponent. -/
def jsCenti (a b : Nat) : Nat :=
  if a = 0 then 0
  else if 0 ≤ ratFloorLog2 a b - 52 then
    100 * jsSignificand a b * 2 ^ (ratFloorLog2 a b - 52).toNat
  else (200 * jsSignificand a b + 2 ^ (52 - ratFloorLog2 a b).toNat) /
    2 ^ ((52 - ratFloorLog2 a b).toNat + 1)

/-- The hundredths count rendered for a seconds value. -/
def jsCentiOf (sec : Nat) : Nat := jsCenti sec 3600

/-- The source's `(worklog.timeSpentSeconds / 3600).toFixed(2)`: the
binary64 division of the seconds count by 3600, rendered to two
decimals. -/
def jsToFixed2 (sec : Nat) : String :=
  twoDecFormat (jsCentiOf sec)

/-- Modelled from the spec: "two-decimal fixed-point rounding of
seconds/3600" — the number of hundredths is the rational
`sec / 3600 * 100` rounded to the nearest integer. -/
def specCentiHours (sec : Nat) : ℤ :=
  round ((sec : ℚ) / 3600 * 100)

/-- The normalized author sub-record of a `WorklogRecord`. -/
structure AuthorRecord where
  accountId : JValue
  displayName : JValue
deriving DecidableEq, Repr

/-- The normalized worklog record produced by `transformWorklogs`
(the stable output schema). -/
structure WorklogRecord where
  id : JValue
  issueKey : JValue
  issueId : JValue
  issueSummary : JValue
  date : JValue
  startTime : JValue
  timeSpentSeconds : Nat
  timeSpentHours : String
  description : JValue
  author : AuthorRecord
  createdAt : JValue
  updatedAt : JValue
deriving DecidableEq, Repr

/-- The body of the `worklogs.map(...)` arrow in
`TempoService.transformWorklogs`: normalizes one raw worklog, field by
field, with the source's `||` defaults. -/
def transformOne (w : RawWorklog) : WorklogRecord where
  id := w.tempoWorklogId
  issueKey := jsOr (worklogIssueKey w) (.vStr "N/A")
  issueId := jsOr (worklogIssueId w) .vNull
  issueSummary := jsOr (worklogIssueSummary w) .vNull
  date := w.startDate
  startTime := jsOr w.startTime .vNull
  timeSpentSeconds := w.timeSpentSeconds
  timeSpentHours := jsToFixed2 w.timeSpentSeconds
  description := jsOr w.description (.vStr "")
  author :=
    { accountId := jsOr (worklogAuthorAccountId w) .vNull
      displayName := jsOr (worklogAuthorDisplayName w) (.vStr "Unknown") }
  createdAt := w.createdAt
  updatedAt := w.updatedAt

/-- The source's `TempoService.transformWorklogs`: maps the normalizer
over the raw worklog list. -/
def transformWorklogs (worklogs : List RawWorklog) : List WorklogRecord :=
  worklogs.map transformOne

/-- An issue returned by the Jira batch search
(`response.data.issues` elements): an id, a key and
`fields.summary`. -/
structure JiraIssue where
  id : JValue
  key : JValue
  summary : JValue
deriving DecidableEq, Repr

/-- An error thrown by the Jira batch-search call (only its message is
observed — the source logs it and continues). -/
structure JiraError where
  message : String
deriving DecidableEq, Repr

/-- Lookup in the `issueMap` object built by
`issueMap[issue.id] = {key, summary}` over the response issues: object
keys are string-coerced ids, and a later assignment to the same key
overwrites an earlier one, so lookup finds the last matching issue. -/
def issueMapLookup (issues : List JiraIssue) (k : String) : Option JiraIssue :=
  issues.reverse.find? (fun i => jsToString i.id == k)

/-- The enrichment loop body for one worklog: when
`worklog.issue?.id && issueMap[worklog.issue.id]` is truthy, overwrite
the issue's `key` and `summary` with the mapped values, else leave the
worklog as is. -/
def enrichOne (issues : List JiraIssue) (w : RawWorklog) : RawWorklog :=
  match w.issue with
  | none => w
  | some i =>
    if i.id.truthy then
      match issueMapLookup issues (jsToString i.id) with
      | some ji => { w with issue := some { i with key := ji.key, summary := ji.summary } }
      | none => w
    else w

/-- JavaScript `[...new Set(l)]`: deduplicate, keeping the first
occurrence of each value, preserving insertion order. -/
def dedupFirst (l : List JValue) : List JValue :=
  l.foldl (fun acc x => if x ∈ acc then acc else acc ++ [x]) []

/-- The source's `TempoService.enrichWithIssueKeys`.  The in-place
mutation of `worklogs` is modelled by returning the updated list; the
second component records whether the Jira network call was made.
`jiraResp` is the outcome of that call: the list of issues on success,
or the thrown error. -/
def enrichWithIssueKeys (worklogs : List RawWorklog)
    (jiraResp : Except JiraError (List JiraIssue)) : List RawWorklog × Bool :=
  let issueIds := dedupFirst ((worklogs.map worklogIssueId).filter JValue.truthy)
  if issueIds.isEmpty then
    (worklogs, false)
  else
    match jiraResp with
    | .error _ => (worklogs, true)
    | .ok issues => (worklogs.map (enrichOne issues), true)

/-- Whether a worklog is matched by the enrichment guard
(`worklog.issue?.id && issueMap[worklog.issue.id]`) for a given
successful Jira response. -/
def enrichMatched (issues : List JiraIssue) (w : RawWorklog) : Bool :=
  match w.issue with
  | none => false
  | some i => i.id.truthy && (issueMapLookup issues (jsToString i.id)).isSome

/-- One page of the Tempo `/worklogs` response: `results` (possibly
absent) and the truthiness of `metadata && metadata.next`. -/
structure Page where
  results : Option (List RawWorklog)
  next : Bool
deriving DecidableEq, Repr

/-- Default page used with `List.getD` in page-trace hypotheses. -/
def dummyPage : Page := { results := none, next := false }

/-- What one page contributes to `allWorklogs`: the source pushes
`...results` only when `results && results.length > 0`. -/
def pageContribution (p : Page) : List RawWorklog :=
  match p.results with
  | some rs => if 0 < rs.length then rs else []
  | none => []

/-- The `error.response` of an axios error thrown by the Tempo call:
HTTP status plus the response `data`. -/
structure ErrResponse where
  status : Nat
  dataPresent : Bool
  dataMessage : JValue
deriving DecidableEq, Repr

/-- A transport or non-2xx error thrown by the Tempo client:
`response` is absent for pure transport errors. -/
structure UpstreamError where
  response : Option ErrResponse
  message : String
deriving DecidableEq, Repr

/-- Outcome of the pagination loop: the accumulated worklogs and the
number of upstream calls made, a thrown error (with the number of calls
made including the failing one), or fuel exhaustion (a model artifact —
theorems exclude it with a fuel hypothesis). -/
inductive FetchOutcome where
  | ok : List RawWorklog → Nat → FetchOutcome
  | fail : UpstreamError → Nat → FetchOutcome
  | fuelOut : FetchOutcome
deriving DecidableEq, Repr

/-- The `while (hasMore)` loop of `TempoService.getWorklogs`: call the
upstream at the current `offset`, append the page's results, advance
`offset` by the fixed `limit = 50`, and continue while
`metadata && metadata.next` is truthy.  A thrown upstream error aborts
the loop, discarding the partial accumulation. -/
def fetchLoop (upstream : Nat → Except UpstreamError Page) : Nat → Nat → FetchOutcome
  | 0, _ => .fuelOut
  | fuel + 1, offset =>
    match upstream offset with
    | .error e => .fail e 1
    | .ok p =>
      let got := pageContribution p
      if p.next then
        match fetchLoop upstream fuel (offset + 50) with
        | .ok ws calls => .ok (got ++ ws) (calls + 1)
        | .fail e calls => .fail e (calls + 1)
        | .fuelOut => .fuelOut
      else
        .ok got 1

/-- The canonical upstream of the spec's pagination property: `records`
total records served in windows of 50 from `offset`, with the next-page
marker present exactly when the served window is full (so one extra call
is needed to discover exhaustion). -/
def canonUpstream (records : List RawWorklog) (offset : Nat) : Except UpstreamError Page :=
  .ok { results := some ((records.drop offset).take 50)
        next := decide (offset + 50 ≤ records.length) }

/-- Outcome of `TempoService.getWorklogs` as a whole. -/
inductive GetOutcome where
  | ok : List WorklogRecord → Nat → GetOutcome
  | fail : UpstreamError → Nat → GetOutcome
  | fuelOut : GetOutcome
deriving DecidableEq, Repr

/-- The source's `TempoService.getWorklogs`: paginate, then enrich when
the Jira client is configured and at least one worklog was fetched, then
transform.  The `Nat` is the number of Tempo calls made. -/
def getWorklogs (upstream : Nat → Except UpstreamError Page) (jiraConfigured : Bool)
    (jiraResp : Except JiraError (List JiraIssue)) (fuel : Nat) : GetOutcome :=
  match fetchLoop upstream fuel 0 with
  | .fuelOut => .fuelOut
  | .fail e calls => .fail e calls
  | .ok raws calls =>
    let enriched :=
      if jiraConfigured && decide (0 < raws.length) then
        (enrichWithIssueKeys raws jiraResp).1
      else raws
    .ok (transformWorklogs enriched) calls

/-- The handler's `error.response?.status || 500`. -/
def jsErrStatus (e : UpstreamError) : Nat :=
  match e.response with
  | some r => if r.status ≠ 0 then r.status else 500
  | none => 500

/-- The handler's `error.response?.data?.message`. -/
def errDataMessage (e : UpstreamError) : JValue :=
  match e.response with
  | some r => if r.dataPresent then r.dataMessage else .vUndefined
  | none => .vUndefined

/-- The handler's `error.response?.data?.message || error.message`. -/
def jsErrMessage (e : UpstreamError) : JValue :=
  jsOr (errDataMessage e) (.vStr e.message)

/-- The `details` field of the failure body:
`error.response?.data || null` — `null` when the error carries no
response data, else the (truthy) data object, represented by its
`message` field. -/
inductive DetailsVal where
  | nullVal : DetailsVal
  | dataObj : JValue → DetailsVal
deriving DecidableEq, Repr

/-- The handler's `error.response?.data || null`. -/
def jsErrDetails (e : UpstreamError) : DetailsVal :=
  match e.response with
  | some r => if r.dataPresent then .dataObj r.dataMessage else .nullVal
  | none => .nullVal

/-- The query parameters read by the handler: `startDate`, `endDate`,
`format` (`none` models an absent parameter). -/
structure Request where
  startDate : Option String
  endDate : Option String
  format : Option String
deriving DecidableEq, Repr

/-- The environment variables read by the handler (`none` models an
unset variable). -/
structure Env where
  tempoApiToken : Option String
  jiraApiToken : Option String
  jiraEmail : Option String
  jiraBaseUrl : Option String
deriving DecidableEq, Repr

/-- Truthiness of a possibly-absent string value (an absent query
parameter or environment variable, and the empty string, are falsy). -/
def optTruthy : Option String → Bool
  | none => false
  | some s => s != ""

/-- The source's `/^\d\x7b4\x7d-\d\x7b2\x7d-\d\x7b2\x7d$/.test(s)`:
exactly four digits, a dash, two digits, a dash, two digits. -/
def dateRegexTest (s : String) : Bool :=
  match s.data with
  | [y1, y2, y3, y4, dash1, m1, m2, dash2, d1, d2] =>
    [y1, y2, y3, y4, m1, m2, d1, d2].all Char.isDigit && dash1 == '-' && dash2 == '-'
  | _ => false

/-- Numeric value of a decimal digit character. -/
def digitVal (c : Char) : Nat := c.toNat - 48

/-- Gregorian leap-year rule. -/
def isLeap (y : Nat) : Bool :=
  y % 4 == 0 && (y % 100 != 0 || y % 400 == 0)

/-- Number of days in a month of the proleptic Gregorian calendar. -/
def daysInMonth (y m : Nat) : Nat :=
  if m = 2 then (if isLeap y then 29 else 28)
  else if m = 4 ∨ m = 6 ∨ m = 9 ∨ m = 11 then 30
  else 31

/-- Days from 1970-01-01 to year/month/day of the proleptic Gregorian
calendar (the civil-from-days inverse used by date libraries). -/
def daysFromCivil (y m d : Nat) : Int :=
  let yi : Int := if m ≤ 2 then (y : Int) - 1 else (y : Int)
  let era : Int := (if 0 ≤ yi then yi else yi - 399) / 400
  let yoe : Int := yi - era * 400
  let mp : Int := ((m : Int) + 9) % 12
  let doy : Int := (153 * mp + 2) / 5 + (d : Int) - 1
  let doe : Int := yoe * 365 + yoe / 4 - yoe / 100 + doy
  era * 146097 + doe - 719468

/-- The numeric value of `new Date(s)` for a `YYYY-MM-DD` string:
milliseconds since the epoch at UTC midnight, or `none` for an invalid
date (wrong shape, month outside 1..12, or day outside the month) —
ECMAScript yields an Invalid Date (`NaN` value) for out-of-range ISO
fields. -/
def jsDateValue (s : String) : Option Int :=
  match s.data with
  | [y1, y2, y3, y4, dash1, m1, m2, dash2, d1, d2] =>
    if dash1 = '-' ∧ dash2 = '-' ∧ [y1, y2, y3, y4, m1, m2, d1, d2].all Char.isDigit then
      let y := ((digitVal y1 * 10 + digitVal y2) * 10 + digitVal y3) * 10 + digitVal y4
      let m := digitVal m1 * 10 + digitVal m2
      let d := digitVal d1 * 10 + digitVal d2
      if 1 ≤ m ∧ m ≤ 12 ∧ 1 ≤ d ∧ d ≤ daysInMonth y m then
        some (86400000 * daysFromCivil y m d)
      else none
    else none
  | _ => none

/-- The source's `new Date(startDate) > new Date(endDate)`: numeric
comparison, false whenever either side is `NaN` (an invalid date). -/
def jsDateGT : Option Int → Option Int → Bool
  | some a, some b => decide (b < a)
  | _, _ => false

/-- The response bodies the handler can produce; each constructor lists
the fields of the corresponding object literal in the source. -/
inductive Body where
  | missingParams : (error message exampleUrl : String) → Body
  | invalidFormat : (error message providedStart providedEnd : String) → Body
  | invalidRange : (error message : String) → Body
  | configError : (error message : String) → Body
  | fetchFailed : (error : String) → (message : JValue) → (details : DetailsVal) → Body
  | flatBody : List WorklogRecord → Body
  | fullBody : (startDate endDate : String) → (totalWorklogs : Nat) →
      (totalHours : String) → (totalSeconds : Nat) → List WorklogRecord → Body
deriving DecidableEq, Repr

/-- The `error` field of a response body, when it has one. -/
def Body.errorField : Body → Option String
  | .missingParams e _ _ => some e
  | .invalidFormat e _ _ _ => some e
  | .invalidRange e _ => some e
  | .configError e _ => some e
  | .fetchFailed e _ _ => some e
  | .flatBody _ => none
  | .fullBody _ _ _ _ _ _ => none

/-- The `message` field of a response body, when it has one (the
fetch-failure message is a JavaScript value). -/
def Body.messageField : Body → Option JValue
  | .missingParams _ m _ => some (.vStr m)
  | .invalidFormat _ m _ _ => some (.vStr m)
  | .invalidRange _ m => some (.vStr m)
  | .configError _ m => some (.vStr m)
  | .fetchFailed _ m _ => some m
  | .flatBody _ => none
  | .fullBody _ _ _ _ _ _ => none

/-- An HTTP response set on `context.res`. -/
structure Response where
  status : Nat
  body : Body
deriving DecidableEq, Repr

/-- Result of one handler invocation: the response together with the
number of Tempo calls that were made while producing it. -/
structure HandlerResult where
  response : Response
  upstreamCalls : Nat
deriving DecidableEq, Repr

/-- The `GetWorklogs` HTTP handler (`module.exports` of
`src/GetWorklogs/index.js`): parameter validation, date-format and
date-range validation, configuration check, then the pipeline, with the
catch block mapping a thrown upstream error to a failure response.
`none` is the out-of-fuel model artifact. -/
def handleRequest (req : Request) (env : Env) (upstream : Nat → Except UpstreamError Page)
    (jiraResp : Except JiraError (List JiraIssue)) (fuel : Nat) : Option HandlerResult :=
  if !optTruthy req.startDate || !optTruthy req.endDate then
    some { response :=
            { status := 400
              body := .missingParams "Missing required parameters"
                "Both startDate and endDate query parameters are required (format: YYYY-MM-DD)"
                "/api/worklogs?startDate=2026-01-01&endDate=2026-01-31" }
           upstreamCalls := 0 }
  else
    let startDate := req.startDate.getD ""
    let endDate := req.endDate.getD ""
    if !dateRegexTest startDate || !dateRegexTest endDate then
      some { response :=
              { status := 400
                body := .invalidFormat "Invalid date format"
                  "Dates must be in YYYY-MM-DD format" startDate endDate }
             upstreamCalls := 0 }
    else if jsDateGT (jsDateValue startDate) (jsDateValue endDate) then
      some { response :=
              { status := 400
                body := .invalidRange "Invalid date range"
                  "startDate must be before or equal to endDate" }
             upstreamCalls := 0 }
    else if !optTruthy env.tempoApiToken then
      some { response :=
              { status := 500
                body := .configError "Configuration error"
                  "TEMPO_API_TOKEN is not configured" }
             upstreamCalls := 0 }
    else
      let jiraConfigured := optTruthy env.jiraApiToken
      match getWorklogs upstream jiraConfigured jiraResp fuel with
      | .fuelOut => none
      | .fail e calls =>
        some { response :=
                { status := jsErrStatus e
                  body := .fetchFailed "Failed to retrieve worklogs" (jsErrMessage e) (jsErrDetails e) }
               upstreamCalls := calls }
      | .ok worklogs calls =>
        let totalSeconds := worklogs.foldl (fun sum w => sum + w.timeSpentSeconds) 0
        if req.format == some "flat" then
          some { response := { status := 200, body := .flatBody worklogs }
                 upstreamCalls := calls }
        else
          some { response :=
                  { status := 200
                    body := .fullBody startDate endDate worklogs.length
                      (jsToFixed2 totalSeconds) totalSeconds worklogs }
                 upstreamCalls := calls }

/-! ## Sample data used by witness theorems -/

/-- A raw worklog with `issue`, `author` and `description` entirely
absent. -/
def bareWorklog : RawWorklog where
  tempoWorklogId := .vNum 1
  issue := none
  startDate := .vStr "2026-01-02"
  startTime := .vUndefined
  timeSpentSeconds := 5400
  description := .vUndefined
  author := none
  createdAt := .vStr "2026-01-02T09:00:00Z"
  updatedAt := .vStr "2026-01-02T09:00:00Z"

/-- A raw worklog whose upstream fields are present but falsy. -/
def falsyWorklog : RawWorklog where
  tempoWorklogId := .vNum 2
  issue := some { id := .vNum 0, key := .vStr "", summary := .vUndefined }
  startDate := .vStr "2026-01-03"
  startTime := .vStr ""
  timeSpentSeconds := 0
  description := .vStr ""
  author := some { accountId := .vUndefined, displayName := .vStr "" }
  createdAt := .vUndefined
  updatedAt := .vUndefined

/-! ## Normalizer claims -/

/-- C3: normalization is total — it is a pure Lean function — and a raw
worklog with entirely absent `issue`, `author` and `description` maps to
the documented defaults: `issueKey = "N/A"`, `issueId = null`,
`issueSummary = null`, `author = (accountId: null, displayName:
"Unknown")`, `description = ""`. -/
theorem transform_defaults_on_absent_fields (w : RawWorklog)
    (hIssue : w.issue = none) (hAuthor : w.author = none)
    (hDesc : w.description = .vUndefined) :
    transformWorklogs [w] = [transformOne w]
    ∧ (transformOne w).issueKey = .vStr "N/A"
    ∧ (transformOne w).issueId = .vNull
    ∧ (transformOne w).issueSummary = .vNull
    ∧ (transformOne w).author = { accountId := .vNull, displayName := .vStr "Unknown" }
    ∧ (transformOne w).description = .vStr "" := by
  refine ⟨rfl, ?_, ?_, ?_, ?_, ?_⟩ <;>
    simp [transformOne, jsOr, worklogIssueKey, worklogIssueId, worklogIssueSummary,
      worklogAuthorAccountId, worklogAuthorDisplayName, JValue.truthy, hIssue, hAuthor, hDesc]

/-- Witness for C3 at a concrete bare worklog. -/
theorem transform_defaults_on_absent_fields_witness :
    (transformOne bareWorklog).issueKey = .vStr "N/A"
    ∧ (transformOne bareWorklog).issueId = .vNull
    ∧ (transformOne bareWorklog).issueSummary = .vNull
    ∧ (transformOne bareWorklog).author = { accountId := .vNull, displayName := .vStr "Unknown" }
    ∧ (transformOne bareWorklog).description = .vStr "" :=
  (transform_defaults_on_absent_fields bareWorklog rfl rfl rfl).2

/-- Half-even rounding lands within half a unit of its argument. -/
theorem roundHalfEven_err (q : ℚ) : |(roundHalfEven q : ℚ) - q| ≤ 1 / 2 := by
  have h0 : Int.fract q = q - ⌊q⌋ := rfl
  have h3 : 0 ≤ Int.fract q := Int.fract_nonneg q
  have h4 : Int.fract q < 1 := Int.fract_lt_one q
  rw [h0] at h3 h4
  unfold roundHalfEven
  split_ifs with hc1 hc2 hc3
  · rw [h0] at hc1
    rw [abs_le]
    constructor <;> linarith
  · rw [h0] at hc2
    rw [abs_le]
    push_cast
    constructor <;> linarith
  · rw [h0] at hc1 hc2
    push_neg at hc1 hc2
    rw [abs_le]
    constructor <;> linarith
  · rw [h0] at hc1 hc2
    push_neg at hc1 hc2
    rw [abs_le]
    push_cast
    constructor <;> linarith

/-- The fuel-driven logarithm agrees with `Nat.log 2` once the fuel
covers the argument. -/
theorem natLog2F_eq (fuel : Nat) : ∀ n : Nat, n ≤ fuel → natLog2F fuel n = Nat.log 2 n := by
  induction fuel with
  | zero =>
    intro n hn
    have h0 : n = 0 := by omega
    subst h0
    simp [natLog2F]
  | succ fuel ih =>
    intro n hn
    by_cases h2 : 2 ≤ n
    · have hrec : natLog2F (fuel + 1) n = natLog2F fuel (n / 2) + 1 := by
        simp [natLog2F, h2]
      have hdiv : n / 2 ≤ fuel := by
        have : n / 2 < n := Nat.div_lt_self (by omega) (by omega)
        omega
      rw [hrec, ih (n / 2) hdiv]
      have hlog : Nat.log 2 (n / 2) = Nat.log 2 n - 1 := Nat.log_div_base 2 n
      have hpos : 0 < Nat.log 2 n := Nat.log_pos (by omega) h2
      omega
    · have h0 : natLog2F (fuel + 1) n = 0 := by simp [natLog2F, h2]
      rw [h0]
      symm
      rw [Nat.log_eq_zero_iff]
      omega

theorem natLog2_eq (n : Nat) : natLog2 n = Nat.log 2 n := natLog2F_eq n n le_rfl

/-- `ratFloorLog2` brackets the positive rational `a / b` between
consecutive powers of two. -/
theorem ratFloorLog2_spec (a b : Nat) (ha : 0 < a) (hb : 0 < b) :
    (2 : ℚ) ^ ratFloorLog2 a b ≤ (a : ℚ) / b
    ∧ (a : ℚ) / b < (2 : ℚ) ^ (ratFloorLog2 a b + 1) := by
  have hb' : (0 : ℚ) < b := by exact_mod_cast hb
  unfold ratFloorLog2
  simp only [natLog2_eq]
  by_cases hba : b ≤ a
  · rw [if_pos hba]
    have hn1 : a / b ≠ 0 := by
      have : 1 ≤ a / b := (Nat.one_le_div_iff hb).mpr hba
      omega
    have h1 : 2 ^ Nat.log 2 (a / b) ≤ a / b := Nat.pow_log_le_self 2 hn1
    have h2 : a / b < 2 ^ (Nat.log 2 (a / b) + 1) := Nat.lt_pow_succ_log_self (by omega) _
    constructor
    · rw [zpow_natCast]
      have hc1 : ((2 ^ Nat.log 2 (a / b) : ℕ) : ℚ) ≤ ((a / b : ℕ) : ℚ) := by exact_mod_cast h1
      have hc2 : ((a / b : ℕ) : ℚ) ≤ (a : ℚ) / b := Nat.cast_div_le
      calc (2 : ℚ) ^ Nat.log 2 (a / b) = ((2 ^ Nat.log 2 (a / b) : ℕ) : ℚ) := by push_cast; ring
        _ ≤ (a : ℚ) / b := le_trans hc1 hc2
    · have h6 : a < b * (a / b) + b := by
        have hdm := Nat.div_add_mod a b
        have hmod := Nat.mod_lt a hb
        omega
      have h5 : (a : ℚ) < b * (a / b : ℕ) + b := by exact_mod_cast h6
      have h7 : (a : ℚ) / b < ((a / b : ℕ) : ℚ) + 1 := by
        rw [div_lt_iff hb']
        calc (a : ℚ) < b * (a / b : ℕ) + b := h5
          _ = (((a / b : ℕ) : ℚ) + 1) * b := by ring
      have h8 : (((a / b : ℕ) : ℚ) + 1) ≤ (2 : ℚ) ^ (Nat.log 2 (a / b) + 1) := by
        exact_mod_cast h2
      have h9 : ((Nat.log 2 (a / b) : ℤ) + 1) = ((Nat.log 2 (a / b) + 1 : ℕ) : ℤ) := by
        push_cast
        ring
      rw [h9, zpow_natCast]
      linarith
  · have hab : a < b := by omega
    rw [if_neg hba]
    have ht1 : b / a ≠ 0 := by
      have : 1 ≤ b / a := (Nat.one_le_div_iff ha).mpr (le_of_lt hab)
      omega
    have h1 : 2 ^ Nat.log 2 (b / a) ≤ b / a := Nat.pow_log_le_self 2 ht1
    have h2 : b / a < 2 ^ (Nat.log 2 (b / a) + 1) := Nat.lt_pow_succ_log_self (by omega) _
    have hA : a * 2 ^ Nat.log 2 (b / a) ≤ b :=
      calc a * 2 ^ Nat.log 2 (b / a) ≤ a * (b / a) := Nat.mul_le_mul_left a h1
        _ = b / a * a := by ring
        _ ≤ b := Nat.div_mul_le_self b a
    have hB : b < a * 2 ^ (Nat.log 2 (b / a) + 1) := by
      have hdm := Nat.div_add_mod b a
      have hmod : b % a < a := Nat.mod_lt b ha
      have h6 : b < a * (b / a) + a := by omega
      calc b < a * (b / a) + a := h6
        _ = a * (b / a + 1) := by ring
        _ ≤ a * 2 ^ (Nat.log 2 (b / a) + 1) := Nat.mul_le_mul_left a h2
    by_cases heq : a * 2 ^ Nat.log 2 (b / a) = b
    · rw [if_pos heq]
      have hq : (a : ℚ) / b = (2 : ℚ) ^ (-(Nat.log 2 (b / a) : ℤ)) := by
        have hbq : (b : ℚ) = (a : ℚ) * 2 ^ Nat.log 2 (b / a) := by exact_mod_cast heq.symm
        rw [zpow_neg, zpow_natCast, hbq]
        have ha' : (a : ℚ) ≠ 0 := by
          have : (0 : ℚ) < a := by exact_mod_cast ha
          exact ne_of_gt this
        field_simp
      constructor
      · exact le_of_eq hq.symm
      · rw [hq]
        have hp : (0 : ℚ) < (2 : ℚ) ^ (-(Nat.log 2 (b / a) : ℤ)) := zpow_pos (by norm_num) _
        calc (2 : ℚ) ^ (-(Nat.log 2 (b / a) : ℤ)) <
            2 * (2 : ℚ) ^ (-(Nat.log 2 (b / a) : ℤ)) := by linarith
          _ = (2 : ℚ) ^ (-(Nat.log 2 (b / a) : ℤ) + 1) := by
              rw [zpow_add₀ (by norm_num : (2 : ℚ) ≠ 0), zpow_one]
              ring
    · rw [if_neg heq]
      have hpow : (0 : ℚ) < (2 : ℚ) ^ (Nat.log 2 (b / a) + 1) := by positivity
      have hpow0 : (0 : ℚ) < (2 : ℚ) ^ Nat.log 2 (b / a) := by positivity
      constructor
      · have hcast : (2 : ℚ) ^ (-((Nat.log 2 (b / a) : ℤ) + 1)) =
            1 / (2 : ℚ) ^ (Nat.log 2 (b / a) + 1) := by
          rw [zpow_neg, one_div]
          congr 1
          rw [show ((Nat.log 2 (b / a) : ℤ) + 1) = ((Nat.log 2 (b / a) + 1 : ℕ) : ℤ) from by
            push_cast; ring, zpow_natCast]
        rw [hcast, div_le_div_iff hpow hb', one_mul]
        have hBq : (b : ℚ) ≤ (a : ℚ) * 2 ^ (Nat.log 2 (b / a) + 1) := by exact_mod_cast hB.le
        linarith
      · have hexp : -((Nat.log 2 (b / a) : ℤ) + 1) + 1 = -(Nat.log 2 (b / a) : ℤ) := by ring
        rw [hexp, zpow_neg, zpow_natCast, inv_eq_one_div, div_lt_div_iff hb' hpow0, one_mul]
        have hAq : (a : ℚ) * 2 ^ Nat.log 2 (b / a) < b := by
          exact_mod_cast lt_of_le_of_ne hA heq
        linarith

/-- The executable half-even division is `roundHalfEven` of the exact
quotient. -/
theorem halfEvenDiv_eq (A B : Nat) (hB : 0 < B) :
    ((halfEvenDiv A B : ℕ) : ℤ) = roundHalfEven ((A : ℚ) / B) := by
  have hBq : (0 : ℚ) < (B : ℚ) := by exact_mod_cast hB
  have hfl : ⌊(A : ℚ) / B⌋ = ((A / B : ℕ) : ℤ) := by
    rw [Rat.floor_natCast_div_natCast]
    exact (Int.ofNat_ediv A B).symm
  have hmod : Int.fract ((A : ℚ) / B) = ((A % B : ℕ) : ℚ) / B := by
    rw [Int.fract, hfl]
    have hcast : (((A / B : ℕ) : ℤ) : ℚ) = ((A / B : ℕ) : ℚ) := Int.cast_natCast _
    rw [hcast, eq_div_iff (ne_of_gt hBq), sub_mul, div_mul_cancel₀ _ (ne_of_gt hBq)]
    have hdm : (A : ℚ) = (B : ℚ) * ((A / B : ℕ) : ℚ) + ((A % B : ℕ) : ℚ) := by
      exact_mod_cast (Nat.div_add_mod A B).symm
    linarith
  have hlt : (Int.fract ((A : ℚ) / B) < 1 / 2) ↔ (2 * (A % B) < B) := by
    rw [hmod, div_lt_iff hBq]
    constructor
    · intro h
      have h2 : ((2 * (A % B) : ℕ) : ℚ) < (B : ℚ) := by push_cast; linarith
      exact_mod_cast h2
    · intro h
      have h2 : ((2 * (A % B) : ℕ) : ℚ) < (B : ℚ) := by exact_mod_cast h
      push_cast at h2
      linarith
  have hgt : (1 / 2 < Int.fract ((A : ℚ) / B)) ↔ (B < 2 * (A % B)) := by
    rw [hmod, lt_div_iff hBq]
    constructor
    · intro h
      have h2 : (B : ℚ) < ((2 * (A % B) : ℕ) : ℚ) := by push_cast; linarith
      exact_mod_cast h2
    · intro h
      have h2 : (B : ℚ) < ((2 * (A % B) : ℕ) : ℚ) := by exact_mod_cast h
      push_cast at h2
      linarith
  have hpar : (⌊(A : ℚ) / B⌋ % 2 = 0) ↔ ((A / B) % 2 = 0) := by
    rw [hfl]
    omega
  unfold halfEvenDiv roundHalfEven
  by_cases h1 : 2 * (A % B) < B
  · rw [if_pos h1, if_pos (hlt.mpr h1)]
    exact hfl.symm
  · by_cases h2 : B < 2 * (A % B)
    · rw [if_neg h1, if_pos h2, if_neg (by rw [hlt]; exact h1), if_pos (hgt.mpr h2), hfl]
      push_cast
      ring
    · by_cases h3 : (A / B) % 2 = 0
      · rw [if_neg h1, if_neg h2, if_pos h3, if_neg (by rw [hlt]; exact h1),
          if_neg (by rw [hgt]; exact h2), if_pos (hpar.mpr h3)]
        exact hfl.symm
      · rw [if_neg h1, if_neg h2, if_neg h3, if_neg (by rw [hlt]; exact h1),
          if_neg (by rw [hgt]; exact h2), if_neg (by rw [hpar]; exact h3), hfl]
        push_cast
        ring

/-- The executable significand is the half-even rounding of the scaled
exact quotient. -/
theorem jsSignificand_eq (a b : Nat) (hb : 0 < b) :
    ((jsSignificand a b : ℕ) : ℤ) =
      roundHalfEven ((a : ℚ) / b * 2 ^ (52 - ratFloorLog2 a b)) := by
  unfold jsSignificand
  by_cases hs : 0 ≤ 52 - ratFloorLog2 a b
  · rw [if_pos hs, halfEvenDiv_eq _ _ hb]
    congr 1
    rw [show (2 : ℚ) ^ ((52 : ℤ) - ratFloorLog2 a b) =
        (2 : ℚ) ^ ((52 - ratFloorLog2 a b).toNat : ℕ) from by
      rw [← zpow_natCast (2 : ℚ) (52 - ratFloorLog2 a b).toNat, Int.toNat_of_nonneg hs]]
    push_cast
    ring
  · have hbp : 0 < b * 2 ^ (ratFloorLog2 a b - 52).toNat :=
      Nat.mul_pos hb (pow_pos (by omega) _)
    rw [if_neg hs, halfEvenDiv_eq _ _ hbp]
    congr 1
    have ht : (((ratFloorLog2 a b - 52).toNat : ℕ) : ℤ) = ratFloorLog2 a b - 52 :=
      Int.toNat_of_nonneg (by omega)
    have hshow : (2 : ℚ) ^ ((52 : ℤ) - ratFloorLog2 a b) =
        ((2 : ℚ) ^ ((ratFloorLog2 a b - 52).toNat : ℕ))⁻¹ := by
      rw [← zpow_natCast (2 : ℚ) (ratFloorLog2 a b - 52).toNat, ht, ← zpow_neg]
      congr 1
      ring
    rw [hshow, ← div_eq_mul_inv, div_div]
    push_cast
    ring

/-- The binary64 quotient is within half an ulp — relative error
`2^-53` — of the exact quotient. -/
theorem jsDouble_err (a b : Nat) (ha : 0 < a) (hb : 0 < b) :
    |jsDouble a b - (a : ℚ) / b| ≤ ((a : ℚ) / b) / 2 ^ 53 := by
  obtain ⟨hlo, hhi⟩ := ratFloorLog2_spec a b ha hb
  unfold jsDouble
  rw [if_neg (by omega : ¬ a = 0)]
  have h2ne : (2 : ℚ) ≠ 0 := by norm_num
  have hpos : (0 : ℚ) < (2 : ℚ) ^ (ratFloorLog2 a b - 52) := zpow_pos (by norm_num) _
  have hcancel : (a : ℚ) / b * 2 ^ (52 - ratFloorLog2 a b) * 2 ^ (ratFloorLog2 a b - 52) =
      (a : ℚ) / b := by
    rw [mul_assoc, ← zpow_add₀ h2ne,
      show (52 - ratFloorLog2 a b) + (ratFloorLog2 a b - 52) = 0 from by ring, zpow_zero,
      mul_one]
  have hfact : (jsSignificand a b : ℚ) * 2 ^ (ratFloorLog2 a b - 52) - (a : ℚ) / b =
      ((jsSignificand a b : ℚ) - (a : ℚ) / b * 2 ^ (52 - ratFloorLog2 a b)) *
        2 ^ (ratFloorLog2 a b - 52) := by
    rw [sub_mul, hcancel]
  have h1 : |(jsSignificand a b : ℚ) - (a : ℚ) / b * 2 ^ (52 - ratFloorLog2 a b)| ≤ 1 / 2 := by
    have hcast : ((jsSignificand a b : ℕ) : ℚ) =
        ((roundHalfEven ((a : ℚ) / b * 2 ^ (52 - ratFloorLog2 a b)) : ℤ) : ℚ) := by
      exact_mod_cast jsSignificand_eq a b hb
    rw [hcast]
    exact roundHalfEven_err _
  rw [hfact, abs_mul, abs_of_pos hpos]
  calc |(jsSignificand a b : ℚ) - (a : ℚ) / b * 2 ^ (52 - ratFloorLog2 a b)| *
        2 ^ (ratFloorLog2 a b - 52)
      ≤ (1 / 2) * 2 ^ (ratFloorLog2 a b - 52) :=
        mul_le_mul_of_nonneg_right h1 (le_of_lt hpos)
    _ = 2 ^ (ratFloorLog2 a b - 53) := by
        rw [show (1 : ℚ) / 2 = 2 ^ (-1 : ℤ) from by rw [zpow_neg, zpow_one]; norm_num,
          ← zpow_add₀ h2ne,
          show (-1 : ℤ) + (ratFloorLog2 a b - 52) = ratFloorLog2 a b - 53 from by ring]
    _ = 2 ^ ratFloorLog2 a b * 2 ^ (-53 : ℤ) := by
        rw [← zpow_add₀ h2ne,
          show ratFloorLog2 a b + (-53 : ℤ) = ratFloorLog2 a b - 53 from by ring]
    _ ≤ (a : ℚ) / b * 2 ^ (-53 : ℤ) :=
        mul_le_mul_of_nonneg_right hlo (le_of_lt (zpow_pos (by norm_num) _))
    _ = ((a : ℚ) / b) / 2 ^ 53 := by
        have h53 : (2 : ℚ) ^ (-53 : ℤ) = ((2 : ℚ) ^ (53 : ℕ))⁻¹ := by
          rw [← zpow_natCast (2 : ℚ) 53, ← zpow_neg]
          norm_num
        rw [h53, ← div_eq_mul_inv]

/-- The executable hundredths count is `toFixed(2)`'s rounding of
`100` times the double: `⌊100 x + 1/2⌋`, i.e. `round`. -/
theorem jsCenti_eq (a b : Nat) :
    ((jsCenti a b : ℕ) : ℤ) = round (100 * jsDouble a b) := by
  unfold jsCenti jsDouble
  by_cases ha : a = 0
  · rw [if_pos ha, if_pos ha]
    simp
  · rw [if_neg ha, if_neg ha]
    by_cases he : 0 ≤ ratFloorLog2 a b - 52
    · rw [if_pos he]
      have hcast : 100 * ((jsSignificand a b : ℚ) * 2 ^ (ratFloorLog2 a b - 52)) =
          ((100 * jsSignificand a b * 2 ^ (ratFloorLog2 a b - 52).toNat : ℕ) : ℚ) := by
        rw [show (2 : ℚ) ^ (ratFloorLog2 a b - 52) =
            (2 : ℚ) ^ ((ratFloorLog2 a b - 52).toNat : ℕ) from by
          rw [← zpow_natCast (2 : ℚ) (ratFloorLog2 a b - 52).toNat, Int.toNat_of_nonneg he]]
        push_cast
        ring
      rw [hcast, round_natCast]
    · rw [if_neg he]
      have hq : 100 * ((jsSignificand a b : ℚ) * 2 ^ (ratFloorLog2 a b - 52)) + 1 / 2 =
          ((200 * jsSignificand a b + 2 ^ (52 - ratFloorLog2 a b).toNat : ℕ) : ℚ) /
            ((2 ^ ((52 - ratFloorLog2 a b).toNat + 1) : ℕ) : ℚ) := by
        have ht : (((52 - ratFloorLog2 a b).toNat : ℕ) : ℤ) = 52 - ratFloorLog2 a b :=
          Int.toNat_of_nonneg (by omega)
        have hes : (ratFloorLog2 a b - 52) = -(((52 - ratFloorLog2 a b).toNat : ℕ) : ℤ) := by
          rw [ht]
          ring
        rw [hes, zpow_neg, zpow_natCast]
        have hp : (0 : ℚ) < (2 : ℚ) ^ (52 - ratFloorLog2 a b).toNat := by positivity
        field_simp
        ring
      rw [round_eq, hq, Rat.floor_natCast_div_natCast]
      exact Int.ofNat_ediv _ _

/-- The rendered hundredths count is within `1/2 + sec/2^53` of the
exact `100 * sec / 3600`: exact two-decimal rounding up to the double
quotient's half-ulp perturbation. -/
theorem jsCentiOf_err (sec : Nat) :
    |(jsCentiOf sec : ℚ) - (sec : ℚ) * 100 / 3600| ≤ 1 / 2 + (sec : ℚ) / 2 ^ 53 := by
  have hq : ((jsCentiOf sec : ℕ) : ℚ) = ((round (100 * jsDouble sec 3600) : ℤ) : ℚ) := by
    exact_mod_cast jsCenti_eq sec 3600
  rw [hq]
  rcases Nat.eq_zero_or_pos sec with h0 | hpos
  · subst h0
    simp [jsDouble]
  · have herr := jsDouble_err sec 3600 hpos (by norm_num)
    have hs : (0 : ℚ) ≤ (sec : ℚ) := Nat.cast_nonneg sec
    have htri : |(round (100 * jsDouble sec 3600) : ℚ) - (sec : ℚ) * 100 / 3600| ≤
        |(round (100 * jsDouble sec 3600) : ℚ) - 100 * jsDouble sec 3600| +
          |100 * jsDouble sec 3600 - (sec : ℚ) * 100 / 3600| :=
      abs_sub_le _ _ _
    have hr : |(round (100 * jsDouble sec 3600) : ℚ) - 100 * jsDouble sec 3600| ≤ 1 / 2 := by
      rw [abs_sub_comm]
      exact abs_sub_round (100 * jsDouble sec 3600)
    have hmul : |100 * jsDouble sec 3600 - (sec : ℚ) * 100 / 3600| =
        100 * |jsDouble sec 3600 - (sec : ℚ) / 3600| := by
      rw [show 100 * jsDouble sec 3600 - (sec : ℚ) * 100 / 3600 =
        100 * (jsDouble sec 3600 - (sec : ℚ) / 3600) from by ring, abs_mul,
        abs_of_pos (show (0 : ℚ) < 100 from by norm_num)]
    have h2 : 100 * |jsDouble sec 3600 - (sec : ℚ) / 3600| ≤
        100 * (((sec : ℚ) / 3600) / 2 ^ 53) :=
      mul_le_mul_of_nonneg_left herr (by norm_num)
    have h3 : 100 * (((sec : ℚ) / 3600) / 2 ^ 53) ≤ (sec : ℚ) / 2 ^ 53 := by
      have heq : 100 * (((sec : ℚ) / 3600) / 2 ^ 53) =
          (100 * (sec : ℚ)) / (3600 * 2 ^ 53) := by ring
      have heq2 : (sec : ℚ) / 2 ^ 53 = (3600 * (sec : ℚ)) / (3600 * 2 ^ 53) := by
        rw [mul_div_mul_left _ _ (by norm_num : (3600 : ℚ) ≠ 0)]
      rw [heq, heq2]
      apply div_le_div_of_nonneg_right ?_ (by positivity)
      linarith
    rw [hmul] at htri
    linarith

/-- Counterexample to C8 as frozen: at `timeSpentSeconds = 54` the
binary64 quotient 54/3600 lies strictly below the hundredths tie 0.015,
so the program renders `"0.01"`, while "timeSpentSeconds / 3600 rounded
to two-decimal fixed point" (the spec-modelled `specCentiHours`) gives
`"0.02"` — the frozen universal claim fails at this input. -/
theorem timeSpentHours_counterexample :
    (transformOne { bareWorklog with timeSpentSeconds := 54 }).timeSpentHours = "0.01"
    ∧ twoDecFormat (specCentiHours 54).toNat = "0.02"
    ∧ (transformOne { bareWorklog with timeSpentSeconds := 54 }).timeSpentHours ≠
        twoDecFormat (specCentiHours 54).toNat := by
  have hspec : specCentiHours 54 = 2 := by
    rw [specCentiHours, round_eq]
    have harg : ((54 : ℕ) : ℚ) / 3600 * 100 + 1 / 2 = 2 := by norm_num
    rw [harg]
    norm_num
  refine ⟨by decide, ?_, ?_⟩
  · rw [hspec]
    decide
  · rw [hspec]
    decide

/-- C8 (amended): `timeSpentHours` is the two-decimal fixed-point
rendering of the IEEE-754 binary64 quotient `timeSpentSeconds / 3600` —
what `toFixed(2)` actually renders: the rendered hundredths integer
lies within `1/2 + timeSpentSeconds / 2^53` of the exact
`100 * timeSpentSeconds / 3600`, i.e. it is the exact two-decimal
rounding except possibly when the quotient falls within the double's
half-ulp of a hundredths tie — and `timeSpentSeconds = 5400` yields
exactly `"1.50"`.  (The double model is faithful for seconds counts up
to `2^53`, the integers a JavaScript number represents exactly.) -/
theorem timeSpentHours_two_decimal_amended (w : RawWorklog) :
    (transformOne w).timeSpentHours = twoDecFormat (jsCentiOf w.timeSpentSeconds)
    ∧ |(jsCentiOf w.timeSpentSeconds : ℚ) - (w.timeSpentSeconds : ℚ) * 100 / 3600|
        ≤ 1 / 2 + (w.timeSpentSeconds : ℚ) / 2 ^ 53
    ∧ (transformOne { w with timeSpentSeconds := 5400 }).timeSpentHours = "1.50" :=
  ⟨rfl, jsCentiOf_err w.timeSpentSeconds, by
    show jsToFixed2 5400 = "1.50"
    decide⟩

/-- C10: the normalizer decides presence by JavaScript truthiness, so
present-but-falsy upstream values degrade to the defaults: `issue.id` of
`0` or `""` gives `issueId = null`, a falsy `issue.key` gives
`issueKey = "N/A"`, an empty `author.displayName` gives `"Unknown"`, an
empty-string or `0` `startTime` gives `null`, and an empty-string
`description` stays `""`. -/
theorem transform_truthiness_defaults (w : RawWorklog) (i : RawIssue) (a : RawAuthor) :
    (w.issue = some i → (i.id = .vNum 0 ∨ i.id = .vStr "") → (transformOne w).issueId = .vNull)
    ∧ (w.issue = some i → i.key.truthy = false → (transformOne w).issueKey = .vStr "N/A")
    ∧ (w.author = some a → a.displayName = .vStr "" →
        (transformOne w).author.displayName = .vStr "Unknown")
    ∧ ((w.startTime = .vStr "" ∨ w.startTime = .vNum 0) → (transformOne w).startTime = .vNull)
    ∧ (w.description = .vStr "" → (transformOne w).description = .vStr "") := by
  refine ⟨fun hI hid => ?_, fun hI hkey => ?_, fun hA hdn => ?_, fun hst => ?_, fun hd => ?_⟩
  · rcases hid with h | h <;>
      simp [transformOne, jsOr, worklogIssueId, hI, h, JValue.truthy]
  · simp [transformOne, jsOr, worklogIssueKey, hI, hkey]
  · simp [transformOne, jsOr, worklogAuthorDisplayName, hA, hdn, JValue.truthy]
  · rcases hst with h | h <;> simp [transformOne, jsOr, h, JValue.truthy]
  · simp [transformOne, jsOr, hd, JValue.truthy]

/-- Witness for C10 at a concrete worklog whose fields are present but
falsy. -/
theorem transform_truthiness_defaults_witness :
    (transformOne falsyWorklog).issueId = .vNull
    ∧ (transformOne falsyWorklog).issueKey = .vStr "N/A"
    ∧ (transformOne falsyWorklog).author.displayName = .vStr "Unknown"
    ∧ (transformOne falsyWorklog).startTime = .vNull
    ∧ (transformOne falsyWorklog).description = .vStr "" := by
  have h := transform_truthiness_defaults falsyWorklog
    { id := .vNum 0, key := .vStr "", summary := .vUndefined }
    { accountId := .vUndefined, displayName := .vStr "" }
  exact ⟨h.1 rfl (Or.inl rfl), h.2.1 rfl rfl, h.2.2.1 rfl rfl,
    h.2.2.2.1 (Or.inl rfl), h.2.2.2.2 rfl⟩

/-! ## Enrichment claims -/

/-- Two raw worklogs that agree on every field except possibly the
nested issue's `key` and `summary` (in particular the issue sub-object
is present on one exactly when it is present on the other, with the same
issue id). -/
def agreesOutsideKeySummary (a b : RawWorklog) : Prop :=
  a.tempoWorklogId = b.tempoWorklogId ∧ a.startDate = b.startDate ∧
  a.startTime = b.startTime ∧ a.timeSpentSeconds = b.timeSpentSeconds ∧
  a.description = b.description ∧ a.author = b.author ∧
  a.createdAt = b.createdAt ∧ a.updatedAt = b.updatedAt ∧
  a.issue.map RawIssue.id = b.issue.map RawIssue.id

theorem agreesOutsideKeySummary_refl (a : RawWorklog) : agreesOutsideKeySummary a a :=
  ⟨rfl, rfl, rfl, rfl, rfl, rfl, rfl, rfl, rfl⟩

theorem enrichOne_eq_of_none (issues : List JiraIssue) (w : RawWorklog)
    (h : w.issue = none) : enrichOne issues w = w := by
  simp only [enrichOne, h]

theorem enrichOne_eq_of_falsy (issues : List JiraIssue) (w : RawWorklog) (i : RawIssue)
    (h : w.issue = some i) (ht : i.id.truthy = false) : enrichOne issues w = w := by
  simp only [enrichOne, h, ht]
  simp

theorem enrichOne_eq_of_lookup_none (issues : List JiraIssue) (w : RawWorklog) (i : RawIssue)
    (h : w.issue = some i) (ht : i.id.truthy = true)
    (hl : issueMapLookup issues (jsToString i.id) = none) : enrichOne issues w = w := by
  simp only [enrichOne, h, ht, hl, if_true]

theorem enrichOne_eq_of_lookup_some (issues : List JiraIssue) (w : RawWorklog)
    (i : RawIssue) (ji : JiraIssue) (h : w.issue = some i) (ht : i.id.truthy = true)
    (hl : issueMapLookup issues (jsToString i.id) = some ji) :
    enrichOne issues w = { w with issue := some { i with key := ji.key, summary := ji.summary } } := by
  simp only [enrichOne, h, ht, hl, if_true]

theorem enrichOne_agrees (issues : List JiraIssue) (w : RawWorklog) :
    agreesOutsideKeySummary (enrichOne issues w) w := by
  rcases hI : w.issue with _ | i
  · rw [enrichOne_eq_of_none issues w hI]
    exact agreesOutsideKeySummary_refl w
  · by_cases ht : i.id.truthy
    · rcases hl : issueMapLookup issues (jsToString i.id) with _ | ji
      · rw [enrichOne_eq_of_lookup_none issues w i hI ht hl]
        exact agreesOutsideKeySummary_refl w
      · rw [enrichOne_eq_of_lookup_some issues w i ji hI ht hl]
        exact ⟨rfl, rfl, rfl, rfl, rfl, rfl, rfl, rfl, by simp [hI]⟩
    · rw [enrichOne_eq_of_falsy issues w i hI (by simpa using ht)]
      exact agreesOutsideKeySummary_refl w

theorem enrichOne_unmatched (issues : List JiraIssue) (w : RawWorklog)
    (h : enrichMatched issues w = false) : enrichOne issues w = w := by
  rcases hI : w.issue with _ | i
  · exact enrichOne_eq_of_none issues w hI
  · simp only [enrichMatched, hI, Bool.and_eq_false_imp] at h
    by_cases ht : i.id.truthy
    · rcases hl : issueMapLookup issues (jsToString i.id) with _ | ji
      · exact enrichOne_eq_of_lookup_none issues w i hI ht hl
      · exact absurd (h ht) (by simp [hl])
    · exact enrichOne_eq_of_falsy issues w i hI (by simpa using ht)

theorem enrichOne_issueId (issues : List JiraIssue) (w : RawWorklog) :
    worklogIssueId (enrichOne issues w) = worklogIssueId w := by
  rcases hI : w.issue with _ | i
  · rw [enrichOne_eq_of_none issues w hI]
  · by_cases ht : i.id.truthy
    · rcases hl : issueMapLookup issues (jsToString i.id) with _ | ji
      · rw [enrichOne_eq_of_lookup_none issues w i hI ht hl]
      · rw [enrichOne_eq_of_lookup_some issues w i ji hI ht hl]
        simp [worklogIssueId, hI]
    · rw [enrichOne_eq_of_falsy issues w i hI (by simpa using ht)]

theorem enrichOne_idem (issues : List JiraIssue) (w : RawWorklog) :
    enrichOne issues (enrichOne issues w) = enrichOne issues w := by
  rcases hI : w.issue with _ | i
  · rw [enrichOne_eq_of_none issues w hI, enrichOne_eq_of_none issues w hI]
  · by_cases ht : i.id.truthy
    · rcases hl : issueMapLookup issues (jsToString i.id) with _ | ji
      · rw [enrichOne_eq_of_lookup_none issues w i hI ht hl,
          enrichOne_eq_of_lookup_none issues w i hI ht hl]
      · rw [enrichOne_eq_of_lookup_some issues w i ji hI ht hl]
        rw [enrichOne_eq_of_lookup_some issues _ { i with key := ji.key, summary := ji.summary } ji rfl ht hl]
    · rw [enrichOne_eq_of_falsy issues w i hI (by simpa using ht),
        enrichOne_eq_of_falsy issues w i hI (by simpa using ht)]

/-- The filtered, deduplicated issue-id list is unchanged by the
enrichment pass itself (only `key`/`summary` are written). -/
theorem enrich_ids_stable (issues : List JiraIssue) (ws : List RawWorklog) :
    (ws.map (enrichOne issues)).map worklogIssueId = ws.map worklogIssueId := by
  rw [List.map_map]
  exact List.map_congr_left (fun w _ => enrichOne_issueId issues w)

theorem enrich_error_fst (ws : List RawWorklog) (e : JiraError) :
    (enrichWithIssueKeys ws (.error e)).1 = ws := by
  unfold enrichWithIssueKeys
  by_cases h : (dedupFirst ((ws.map worklogIssueId).filter JValue.truthy)).isEmpty
  · simp [h]
  · simp [h]

theorem enrich_length (ws : List RawWorklog) (jr : Except JiraError (List JiraIssue)) :
    ((enrichWithIssueKeys ws jr).1).length = ws.length := by
  unfold enrichWithIssueKeys
  by_cases h : (dedupFirst ((ws.map worklogIssueId).filter JValue.truthy)).isEmpty
  · simp [h]
  · rcases jr with e | issues <;> simp [h]

theorem getD_map_lt {α β : Type} (f : α → β) (l : List α) (idx : Nat)
    (h : idx < l.length) (d : α) (d' : β) :
    (l.map f).getD idx d' = f (l.getD idx d) := by
  rw [List.getD_eq_getElem?_getD, List.getD_eq_getElem?_getD, List.getElem?_map,
    List.getElem?_eq_getElem h]
  simp

theorem enrich_no_call_of_falsy_ids (ws : List RawWorklog)
    (jr : Except JiraError (List JiraIssue))
    (h : ((ws.map worklogIssueId).all fun v => v == .vUndefined || v == .vNull) = true) :
    enrichWithIssueKeys ws jr = (ws, false) := by
  have hfil : (ws.map worklogIssueId).filter JValue.truthy = [] := by
    rw [List.filter_eq_nil_iff]
    intro v hv
    have hv' := List.all_eq_true.mp h v hv
    rcases v with _ | _ | n | s <;> simp_all [JValue.truthy]
  unfold enrichWithIssueKeys
  rw [hfil]
  rfl

/-- C4: a thrown batched issue lookup is absorbed — the pipeline
returns the normalization of the un-enriched fetched worklogs, with the
same cardinality, and the overall request still succeeds. -/
theorem enrichment_failure_nonfatal (upstream : Nat → Except UpstreamError Page)
    (fuel : Nat) (raws : List RawWorklog) (calls : Nat) (jiraConfigured : Bool)
    (err : JiraError)
    (hfetch : fetchLoop upstream fuel 0 = .ok raws calls) :
    getWorklogs upstream jiraConfigured (.error err) fuel = .ok (transformWorklogs raws) calls
    ∧ (transformWorklogs raws).length = raws.length := by
  constructor
  · unfold getWorklogs
    rw [hfetch]
    by_cases h : (jiraConfigured && decide (0 < raws.length)) = true <;>
      simp [h, enrich_error_fst]
  · simp [transformWorklogs]

/-- Witness for C4: a one-page fetch followed by a failing Jira lookup
still yields the normalized un-enriched record. -/
theorem enrichment_failure_nonfatal_witness :
    getWorklogs (canonUpstream [falsyWorklog]) true (.error { message := "jira down" }) 2 =
      .ok (transformWorklogs [falsyWorklog]) 1
    ∧ (transformWorklogs [falsyWorklog]).length = [falsyWorklog].length :=
  enrichment_failure_nonfatal (canonUpstream [falsyWorklog]) 2 [falsyWorklog] 1 true
    { message := "jira down" } (by decide)

/-- C5: enrichment only ever writes the nested issue `key`/`summary`,
touches only worklogs matched by the lookup map, leaves unmatched
worklogs (and every other field of every worklog) untouched, preserves
the collection's length, and when every issue identifier is absent or
null it returns at once without making the Jira call. -/
theorem enrich_frame (ws : List RawWorklog) (jr : Except JiraError (List JiraIssue)) :
    ((enrichWithIssueKeys ws jr).1).length = ws.length
    ∧ (∀ e, jr = .error e → (enrichWithIssueKeys ws jr).1 = ws)
    ∧ (∀ issues, jr = .ok issues → ∀ idx, idx < ws.length →
        agreesOutsideKeySummary (((enrichWithIssueKeys ws jr).1).getD idx bareWorklog)
          (ws.getD idx bareWorklog)
        ∧ (enrichMatched issues (ws.getD idx bareWorklog) = false →
            ((enrichWithIssueKeys ws jr).1).getD idx bareWorklog = ws.getD idx bareWorklog))
    ∧ (((ws.map worklogIssueId).all fun v => v == .vUndefined || v == .vNull) = true →
        enrichWithIssueKeys ws jr = (ws, false)) := by
  refine ⟨enrich_length ws jr, fun e he => by rw [he, enrich_error_fst],
    fun issues hok idx hidx => ?_, enrich_no_call_of_falsy_ids ws jr⟩
  rw [hok]
  unfold enrichWithIssueKeys
  by_cases h : (dedupFirst ((ws.map worklogIssueId).filter JValue.truthy)).isEmpty
  · simp only [h, if_true]
    exact ⟨agreesOutsideKeySummary_refl _, fun _ => trivial⟩
  · simp only [h, Bool.false_eq_true, if_false]
    rw [getD_map_lt (enrichOne issues) ws idx hidx bareWorklog bareWorklog]
    exact ⟨enrichOne_agrees issues _, fun hm => enrichOne_unmatched issues _ hm⟩

/-- Witness for C5: the error branch leaves the list untouched, and a
list whose only worklog lacks an issue id makes no Jira call. -/
theorem enrich_frame_witness :
    (enrichWithIssueKeys [falsyWorklog] (.error { message := "jira down" })).1 = [falsyWorklog]
    ∧ enrichWithIssueKeys [bareWorklog] (.ok []) = ([bareWorklog], false)
    ∧ agreesOutsideKeySummary
        ((enrichWithIssueKeys [falsyWorklog] (.ok [])).1.getD 0 bareWorklog)
        ([falsyWorklog].getD 0 bareWorklog) :=
  ⟨(enrich_frame [falsyWorklog] (.error { message := "jira down" })).2.1
      { message := "jira down" } rfl,
    (enrich_frame [bareWorklog] (.ok [])).2.2.2 (by decide),
    ((enrich_frame [falsyWorklog] (.ok [])).2.2.1 [] rfl 0 (by decide)).1⟩

/-- C6: enrichment is idempotent — applying `enrichWithIssueKeys` to an
already-enriched collection with the same lookup outcome reproduces that
collection exactly (same issue keys and summaries, all other fields
unchanged). -/
theorem enrich_idempotent (ws : List RawWorklog) (jr : Except JiraError (List JiraIssue)) :
    (enrichWithIssueKeys (enrichWithIssueKeys ws jr).1 jr).1 = (enrichWithIssueKeys ws jr).1 := by
  by_cases h : (dedupFirst ((ws.map worklogIssueId).filter JValue.truthy)).isEmpty
  · have h1 : (enrichWithIssueKeys ws jr).1 = ws := by
      unfold enrichWithIssueKeys
      simp [h]
    rw [h1, h1]
  · rcases jr with e | issues
    · rw [enrich_error_fst, enrich_error_fst]
    · have h1 : (enrichWithIssueKeys ws (.ok issues)).1 = ws.map (enrichOne issues) := by
        unfold enrichWithIssueKeys
        simp [h]
      have hids : ((ws.map (enrichOne issues)).map worklogIssueId).filter JValue.truthy
          = (ws.map worklogIssueId).filter JValue.truthy := by
        rw [enrich_ids_stable]
      rw [h1]
      unfold enrichWithIssueKeys
      rw [hids]
      simp only [h, Bool.false_eq_true, if_false]
      rw [List.map_map]
      exact List.map_congr_left (fun w _ => enrichOne_idem issues w)

/-! ## Pagination claims -/

theorem pageContribution_eq (p : Page) : pageContribution p = p.results.getD [] := by
  rcases p with ⟨_ | rs, nx⟩
  · rfl
  · show (if 0 < rs.length then rs else []) = rs
    rcases rs with _ | ⟨a, t⟩ <;> simp

/-- Running the pagination loop against the canonical `N`-record
upstream from any offset returns the remaining records and makes one
call per full window plus the exhaustion-discovery call. -/
theorem fetch_canon (records : List RawWorklog) :
    ∀ (fuel offset : Nat), records.length ≤ offset + 50 * fuel →
    fetchLoop (canonUpstream records) (fuel + 1) offset =
      .ok (records.drop offset) ((records.length - offset) / 50 + 1) := by
  intro fuel
  induction fuel with
  | zero =>
    intro offset h
    have hle : records.length ≤ offset := by omega
    have hdrop : records.drop offset = [] := List.drop_eq_nil_of_le hle
    have hn : ¬(offset + 50 ≤ records.length) := by omega
    have hsub : records.length - offset = 0 := Nat.sub_eq_zero_of_le hle
    simp [fetchLoop, canonUpstream, pageContribution_eq, hdrop, hn, hsub]
  | succ f ih =>
    intro offset h
    by_cases hnext : offset + 50 ≤ records.length
    · have ihh := ih (offset + 50) (by omega)
      have hjoin : (records.drop offset).take 50 ++ records.drop (offset + 50) =
          records.drop offset := by
        rw [← List.drop_drop, List.take_append_drop]
      have hcalls : (records.length - (offset + 50)) / 50 + 1 + 1 =
          (records.length - offset) / 50 + 1 := by
        have h50 : 50 ≤ records.length - offset := by omega
        have hsub : records.length - (offset + 50) = records.length - offset - 50 := by omega
        rw [hsub, ← Nat.div_eq_sub_div (by omega) h50]
      calc fetchLoop (canonUpstream records) (f + 1 + 1) offset
        = match fetchLoop (canonUpstream records) (f + 1) (offset + 50) with
          | .ok ws calls => .ok ((records.drop offset).take 50 ++ ws) (calls + 1)
          | .fail e calls => .fail e (calls + 1)
          | .fuelOut => .fuelOut := by
            simp [fetchLoop, canonUpstream, pageContribution_eq, hnext]
        _ = .ok (records.drop offset) ((records.length - offset) / 50 + 1) := by
            rw [ihh]
            simp [hjoin, hcalls]
    · have hdrop : (records.drop offset).take 50 = records.drop offset := by
        apply List.take_of_length_le
        rw [List.length_drop]
        omega
      have hdiv : (records.length - offset) / 50 = 0 := Nat.div_eq_of_lt (by omega)
      simp [fetchLoop, canonUpstream, pageContribution_eq, hnext, hdrop, hdiv]

/-- C2: against an upstream holding `N` records in pages of 50 whose
next-page marker is present exactly while a page is full, the loop
terminates, returns all records, and makes exactly
`N / 50 + 1 = ceil((N + 1) / 50)` calls — one extra call discovers
exhaustion — and an empty first result without a marker makes exactly
one call. -/
theorem pagination_call_count (records : List RawWorklog) (fuel : Nat)
    (hfuel : records.length ≤ 50 * fuel) :
    fetchLoop (canonUpstream records) (fuel + 1) 0 =
      .ok records (records.length / 50 + 1)
    ∧ records.length / 50 + 1 = (records.length + 1 + 49) / 50
    ∧ fetchLoop (canonUpstream ([] : List RawWorklog)) 1 0 = .ok [] 1 := by
  refine ⟨?_, ?_, by decide⟩
  · have h := fetch_canon records fuel 0 (by omega)
    simpa using h
  · have h : records.length + 1 + 49 = records.length + 50 := by omega
    rw [h, Nat.add_div_right _ (by omega)]

/-- Witness for C2 with 62 records: two calls, `62 / 50 + 1 = 2`. -/
theorem pagination_call_count_witness :
    fetchLoop (canonUpstream (List.replicate 62 bareWorklog)) 3 0 =
      .ok (List.replicate 62 bareWorklog) ((List.replicate 62 bareWorklog).length / 50 + 1)
    ∧ (List.replicate 62 bareWorklog).length / 50 + 1 =
        ((List.replicate 62 bareWorklog).length + 1 + 49) / 50
    ∧ fetchLoop (canonUpstream ([] : List RawWorklog)) 1 0 = .ok [] 1 :=
  pagination_call_count (List.replicate 62 bareWorklog) 2 (by decide)

/-- Running the pagination loop against any upstream whose calls, from
`offset` on, return the pages of `trace` (all but the last carrying a
next-page marker, the last carrying none) accumulates exactly the
concatenation of the pages' contributions, in order, in
`trace.length` calls. -/
theorem fetch_trace (trace : List Page) :
    ∀ (upstream : Nat → Except UpstreamError Page) (offset fuel : Nat),
    trace ≠ [] →
    (∀ i, i < trace.length → upstream (offset + 50 * i) = .ok (trace.getD i dummyPage)) →
    (∀ i, i < trace.length →
      (trace.getD i dummyPage).next = decide (i + 1 < trace.length)) →
    trace.length ≤ fuel →
    fetchLoop upstream fuel offset = .ok (trace.map pageContribution).flatten trace.length := by
  induction trace with
  | nil =>
    intro upstream offset fuel hne _ _ _
    exact absurd rfl hne
  | cons p rest ih =>
    intro upstream offset fuel hne hcalls hnext hfuel
    rcases fuel with _ | f
    · simp at hfuel
    have h0 : upstream offset = .ok p := by
      have := hcalls 0 (by simp)
      simpa using this
    have hn0 : p.next = decide (0 + 1 < (p :: rest).length) := by
      have := hnext 0 (by simp)
      simpa using this
    rcases rest with _ | ⟨q, t⟩
    · have hnf : p.next = false := by simpa using hn0
      simp [fetchLoop, h0, hnf]
    · have hnt : p.next = true := by
        rw [hn0]
        simp
      have hrec := ih upstream (offset + 50) f (by simp)
        (fun i hi => by
          have harg : offset + 50 + 50 * i = offset + 50 * (i + 1) := by ring
          rw [harg]
          have := hcalls (i + 1) (by simpa using Nat.succ_lt_succ hi)
          simpa using this)
        (fun i hi => by
          have := hnext (i + 1) (by simpa using Nat.succ_lt_succ hi)
          simpa using this)
        (by simpa using Nat.le_of_succ_le_succ hfuel)
      simp only [fetchLoop, h0, hnt, if_true]
      rw [hrec]
      simp

/-- Unfolding equation for `getWorklogs` on a successful fetch. -/
theorem getWorklogs_ok (upstream : Nat → Except UpstreamError Page) (jiraConfigured : Bool)
    (jiraResp : Except JiraError (List JiraIssue)) (fuel : Nat)
    (raws : List RawWorklog) (calls : Nat)
    (h : fetchLoop upstream fuel 0 = .ok raws calls) :
    getWorklogs upstream jiraConfigured jiraResp fuel =
      .ok (transformWorklogs
        (if (jiraConfigured && decide (0 < raws.length)) = true then
          (enrichWithIssueKeys raws jiraResp).1
        else raws)) calls := by
  unfold getWorklogs
  rw [h]

/-- C1: for every terminating sequence of upstream pages over a valid
date range, the fetch accumulates exactly the concatenation of all
pages' results in upstream order — the record count is the sum of the
page sizes, with nothing dropped, nothing duplicated, and order
preserved — and the pipeline output has that same count whatever the
enrichment configuration and outcome. -/
theorem getWorklogs_concatenates_pages (upstream : Nat → Except UpstreamError Page)
    (trace : List Page) (fuel : Nat)
    (hne : trace ≠ [])
    (hcalls : ∀ i, i < trace.length → upstream (50 * i) = .ok (trace.getD i dummyPage))
    (hnext : ∀ i, i < trace.length →
      (trace.getD i dummyPage).next = decide (i + 1 < trace.length))
    (hfuel : trace.length ≤ fuel) :
    fetchLoop upstream fuel 0 =
      .ok (trace.map (fun p => p.results.getD [])).flatten trace.length
    ∧ ((trace.map (fun p => p.results.getD [])).flatten).length
        = (trace.map (fun p => (p.results.getD []).length)).sum
    ∧ (∀ (jiraConfigured : Bool) (jiraResp : Except JiraError (List JiraIssue)),
        ∃ out, getWorklogs upstream jiraConfigured jiraResp fuel = .ok out trace.length
          ∧ out.length = (trace.map (fun p => (p.results.getD []).length)).sum) := by
  have hmap : trace.map pageContribution = trace.map (fun p => p.results.getD []) :=
    List.map_congr_left (fun p _ => pageContribution_eq p)
  have hfetch := fetch_trace trace upstream 0 fuel hne (by simpa using hcalls) hnext hfuel
  rw [hmap] at hfetch
  have hlen : ((trace.map (fun p => p.results.getD [])).flatten).length
      = (trace.map (fun p => (p.results.getD []).length)).sum := by
    rw [List.length_flatten, List.map_map]
    rfl
  refine ⟨hfetch, hlen, fun jiraConfigured jiraResp => ?_⟩
  by_cases hc : (jiraConfigured &&
      decide (0 < ((trace.map (fun p => p.results.getD [])).flatten).length)) = true
  · refine ⟨transformWorklogs
        (enrichWithIssueKeys ((trace.map (fun p => p.results.getD [])).flatten) jiraResp).1,
      ?_, ?_⟩
    · rw [getWorklogs_ok upstream jiraConfigured jiraResp fuel _ _ hfetch, if_pos hc]
    · rw [← hlen]
      simp only [transformWorklogs, List.length_map, enrich_length]
  · refine ⟨transformWorklogs ((trace.map (fun p => p.results.getD [])).flatten), ?_, ?_⟩
    · rw [getWorklogs_ok upstream jiraConfigured jiraResp fuel _ _ hfetch, if_neg hc]
    · rw [← hlen]
      simp only [transformWorklogs, List.length_map]

/-- A single page without a next-page marker. -/
def singlePage : Page := { results := some [bareWorklog], next := false }

/-- An upstream that always answers with `singlePage`. -/
def singlePageUpstream : Nat → Except UpstreamError Page := fun _ => .ok singlePage

/-- Witness for C1: a one-page upstream trace. -/
theorem getWorklogs_concatenates_pages_witness :
    fetchLoop singlePageUpstream 1 0 = .ok [bareWorklog] 1
    ∧ (∃ out, getWorklogs singlePageUpstream false (.ok []) 1 = .ok out 1
        ∧ out.length = 1) := by
  have h := getWorklogs_concatenates_pages singlePageUpstream [singlePage] 1
    (by decide)
    (fun i hi => by
      have h0 : i = 0 := Nat.lt_one_iff.mp (by simpa using hi)
      subst h0
      rfl)
    (fun i hi => by
      have h0 : i = 0 := Nat.lt_one_iff.mp (by simpa using hi)
      subst h0
      rfl)
    (by decide)
  exact ⟨h.1, h.2.2 false (.ok [])⟩

/-! ## Fetch-failure claim -/

/-- If the first `k` upstream calls succeed with a next-page marker and
call `k` throws, the loop fails with that error after `k + 1` calls,
discarding the partial accumulation. -/
theorem fetch_error_trace (k : Nat) :
    ∀ (upstream : Nat → Except UpstreamError Page) (offset fuel : Nat) (e : UpstreamError),
    (∀ i, i < k → ∃ p, upstream (offset + 50 * i) = .ok p ∧ p.next = true) →
    upstream (offset + 50 * k) = .error e →
    k < fuel →
    fetchLoop upstream fuel offset = .fail e (k + 1) := by
  induction k with
  | zero =>
    intro upstream offset fuel e _ herr hk
    rcases fuel with _ | f
    · exact absurd hk (by omega)
    · have h0 : upstream offset = .error e := by simpa using herr
      simp [fetchLoop, h0]
  | succ k ih =>
    intro upstream offset fuel e hoks herr hk
    rcases fuel with _ | f
    · exact absurd hk (by omega)
    obtain ⟨p, hp, hpn⟩ := hoks 0 (by omega)
    have hp' : upstream offset = .ok p := by simpa using hp
    have hrec := ih upstream (offset + 50) f e
      (fun i hi => by
        obtain ⟨q, hq, hqn⟩ := hoks (i + 1) (by omega)
        refine ⟨q, ?_, hqn⟩
        rw [show offset + 50 + 50 * i = offset + 50 * (i + 1) from by ring]
        exact hq)
      (by
        rw [show offset + 50 + 50 * k = offset + 50 * (k + 1) from by ring]
        exact herr)
      (by omega)
    simp [fetchLoop, hp', hpn, hrec]

/-- Unfolding equation for `getWorklogs` on a failed fetch. -/
theorem getWorklogs_fail (upstream : Nat → Except UpstreamError Page) (jiraConfigured : Bool)
    (jiraResp : Except JiraError (List JiraIssue)) (fuel : Nat)
    (e : UpstreamError) (calls : Nat)
    (h : fetchLoop upstream fuel 0 = .fail e calls) :
    getWorklogs upstream jiraConfigured jiraResp fuel = .fail e calls := by
  unfold getWorklogs
  rw [h]

/-- C7: an upstream error during the page loop aborts the fetch and
fails the whole request — the handler responds with the upstream
error's status code when one is carried (500 otherwise) and a body with
`error = "Failed to retrieve worklogs"`, a message and details, with no
partial worklog data. -/
theorem fetch_error_fails_request (req : Request) (env : Env)
    (upstream : Nat → Except UpstreamError Page)
    (jiraResp : Except JiraError (List JiraIssue)) (fuel k : Nat) (e : UpstreamError)
    (hsd : optTruthy req.startDate = true) (hed : optTruthy req.endDate = true)
    (hfs : dateRegexTest (req.startDate.getD "") = true)
    (hfe : dateRegexTest (req.endDate.getD "") = true)
    (hrange : jsDateGT (jsDateValue (req.startDate.getD ""))
      (jsDateValue (req.endDate.getD "")) = false)
    (htok : optTruthy env.tempoApiToken = true)
    (hoks : ∀ i, i < k → ∃ p, upstream (50 * i) = .ok p ∧ p.next = true)
    (herr : upstream (50 * k) = .error e)
    (hfuel : k < fuel) :
    handleRequest req env upstream jiraResp fuel =
      some { response :=
              { status := jsErrStatus e
                body := .fetchFailed "Failed to retrieve worklogs" (jsErrMessage e)
                  (jsErrDetails e) }
             upstreamCalls := k + 1 }
    ∧ (∀ r, e.response = some r → 0 < r.status → jsErrStatus e = r.status)
    ∧ (e.response = none → jsErrStatus e = 500) := by
  have hfail : fetchLoop upstream fuel 0 = .fail e (k + 1) :=
    fetch_error_trace k upstream 0 fuel e (by simpa using hoks) (by simpa using herr) hfuel
  refine ⟨?_, fun r hr hs => ?_, fun hr => ?_⟩
  · unfold handleRequest
    simp only [hsd, hed, hfs, hfe, hrange, htok, Bool.not_true, Bool.or_self,
      Bool.false_eq_true, if_false]
    rw [getWorklogs_fail upstream (optTruthy env.jiraApiToken) jiraResp fuel e (k + 1) hfail]
  · simp [jsErrStatus, hr, Nat.pos_iff_ne_zero.mp hs]
  · simp [jsErrStatus, hr]

/-- A worklog request with a valid date range. -/
def validReq : Request := { startDate := some "2026-01-01", endDate := some "2026-01-31", format := none }

/-- An environment with both service credentials configured. -/
def tokenEnv : Env :=
  { tempoApiToken := some "tempo-token", jiraApiToken := some "jira-token"
    jiraEmail := some "me@example.com", jiraBaseUrl := some "https://example.atlassian.net" }

/-- A 503 axios-style error with response data. -/
def sampleErr : UpstreamError :=
  { response := some { status := 503, dataPresent := true, dataMessage := .vStr "Service overloaded" }
    message := "Request failed with status code 503" }

/-- An upstream that throws `sampleErr` on every call. -/
def errUpstream : Nat → Except UpstreamError Page := fun _ => .error sampleErr

/-- Witness for C7: the first call throws a 503 and the request fails
with that status and the failure body. -/
theorem fetch_error_fails_request_witness :
    handleRequest validReq tokenEnv errUpstream (.ok []) 1 =
      some { response :=
              { status := 503
                body := .fetchFailed "Failed to retrieve worklogs" (.vStr "Service overloaded")
                  (.dataObj (.vStr "Service overloaded")) }
             upstreamCalls := 1 }
    ∧ jsErrStatus sampleErr = 503 := by
  have h := fetch_error_fails_request validReq tokenEnv errUpstream (.ok []) 1 0 sampleErr
    rfl rfl rfl rfl (by decide) rfl (fun i hi => absurd hi (Nat.not_lt_zero i)) rfl (by decide)
  exact ⟨h.1, h.2.1
    { status := 503, dataPresent := true, dataMessage := .vStr "Service overloaded" }
    rfl (by decide)⟩

/-! ## Validation claim -/

/-- C9: requests with missing parameters, format-malformed dates, or an
inverted range are answered 400 with an error/message body before any
upstream call is made (zero upstream calls, pipeline never invoked); in
particular `startDate=2026-02-01&endDate=2026-01-01` yields 400 with no
upstream call. -/
theorem validation_rejects_before_upstream (req : Request) (env : Env)
    (upstream : Nat → Except UpstreamError Page)
    (jiraResp : Except JiraError (List JiraIssue)) (fuel : Nat) :
    ((optTruthy req.startDate = false ∨ optTruthy req.endDate = false) →
      handleRequest req env upstream jiraResp fuel =
        some { response :=
                { status := 400
                  body := .missingParams "Missing required parameters"
                    "Both startDate and endDate query parameters are required (format: YYYY-MM-DD)"
                    "/api/worklogs?startDate=2026-01-01&endDate=2026-01-31" }
               upstreamCalls := 0 })
    ∧ (optTruthy req.startDate = true → optTruthy req.endDate = true →
       (dateRegexTest (req.startDate.getD "") = false
          ∨ dateRegexTest (req.endDate.getD "") = false) →
      handleRequest req env upstream jiraResp fuel =
        some { response :=
                { status := 400
                  body := .invalidFormat "Invalid date format" "Dates must be in YYYY-MM-DD format"
                    (req.startDate.getD "") (req.endDate.getD "") }
               upstreamCalls := 0 })
    ∧ (optTruthy req.startDate = true → optTruthy req.endDate = true →
       dateRegexTest (req.startDate.getD "") = true →
       dateRegexTest (req.endDate.getD "") = true →
       jsDateGT (jsDateValue (req.startDate.getD ""))
         (jsDateValue (req.endDate.getD "")) = true →
      handleRequest req env upstream jiraResp fuel =
        some { response :=
                { status := 400
                  body := .invalidRange "Invalid date range"
                    "startDate must be before or equal to endDate" }
               upstreamCalls := 0 })
    ∧ handleRequest { startDate := some "2026-02-01", endDate := some "2026-01-01",
                      format := req.format } env upstream jiraResp fuel =
        some { response :=
                { status := 400
                  body := .invalidRange "Invalid date range"
                    "startDate must be before or equal to endDate" }
               upstreamCalls := 0 } := by
  refine ⟨fun h => ?_, fun hsd hed h => ?_, fun hsd hed hfs hfe hgt => ?_, ?_⟩
  · unfold handleRequest
    rcases h with h | h <;> simp [h]
  · unfold handleRequest
    simp only [hsd, hed, Bool.not_true, Bool.or_self, Bool.false_eq_true, if_false]
    rcases h with h | h <;> simp [h]
  · unfold handleRequest
    simp only [hsd, hed, hfs, hfe, hgt, Bool.not_true, Bool.or_self, Bool.false_eq_true,
      Bool.not_false, Bool.or_false, Bool.false_or, if_false, if_true]
  · rfl

/-- Witness for C9: a missing `startDate` and the inverted range
`2026-02-01..2026-01-01` are both rejected with 400 and zero upstream
calls, even against an upstream that would throw. -/
theorem validation_rejects_before_upstream_witness :
    handleRequest { startDate := none, endDate := some "2026-01-31", format := none }
      tokenEnv errUpstream (.ok []) 1 =
      some { response :=
              { status := 400
                body := .missingParams "Missing required parameters"
                  "Both startDate and endDate query parameters are required (format: YYYY-MM-DD)"
                  "/api/worklogs?startDate=2026-01-01&endDate=2026-01-31" }
             upstreamCalls := 0 }
    ∧ handleRequest { startDate := some "2026-02-01", endDate := some "2026-01-01", format := none }
        tokenEnv errUpstream (.ok []) 1 =
        some { response :=
                { status := 400
                  body := .invalidRange "Invalid date range"
                    "startDate must be before or equal to endDate" }
               upstreamCalls := 0 } := by
  have h := validation_rejects_before_upstream
    { startDate := none, endDate := some "2026-01-31", format := none }
    tokenEnv errUpstream (.ok []) 1
  have h2 := validation_rejects_before_upstream
    { startDate := some "2026-02-01", endDate := some "2026-01-01", format := none }
    tokenEnv errUpstream (.ok []) 1
  exact ⟨h.1 (Or.inl rfl), h2.2.2.2⟩

end GetWorklogsApp
